import Mathlib

/-!
Verification development for the loco agent core.

The definitions below are a shallow embedding of the Python sources under
`src/loco/`: `rewind.py` (RewindManager and its data model), `snapshots.py`
(SnapshotStorage), `tools/base.py` (ToolRegistry), `tools/edit.py` (EditTool),
`chat.py` (stream_response) and `agents.py` (Agent / run_agent's
tool_executor).  The file system is modelled as a total map from path strings
to optional contents; on-disk snapshot files are modelled as association
lists keyed by the path itself (the Python code keys them by
`hash_path(path)`, a deterministic digest prefix of the path, so the path is
a faithful key up to digest collisions, which the code tolerates).  Python
dictionaries are modelled as insertion-ordered association lists, matching
CPython's ordering guarantees.  Wall-clock timestamps and telemetry spans,
which no modelled operation reads, are omitted.
-/

namespace Loco

/-- File contents are UTF-8 strings; a missing file is `none`. -/
abbrev FS := String → Option String

/-- Point update of the modelled file system (write when `v = some c`,
delete when `v = none`). -/
def FS.update (fs : FS) (p : String) (v : Option String) : FS :=
  fun q => if q = p then v else fs q

/-- Boolean membership test on a list of strings (Python's `in`). -/
def memS (x : String) : List String → Bool
  | [] => false
  | y :: t => x = y || memS x t

/-- First-match lookup in an insertion-ordered association list
(Python `dict.get`). -/
def lookupA {α : Type} : List (String × α) → String → Option α
  | [], _ => none
  | (k, v) :: t, p => if k = p then some v else lookupA t p

/-- Key-presence test in an association list (Python `in` on a dict). -/
def containsKeyA {α : Type} : List (String × α) → String → Bool
  | [], _ => false
  | (k, _) :: t, p => k = p || containsKeyA t p

/-- Replace the value at the first occurrence of the key, or append the pair
at the end when the key is absent (CPython dict assignment keeps the
original insertion position). -/
def setKeyA {α : Type} : List (String × α) → String → α → List (String × α)
  | [], k, v => [(k, v)]
  | (k', v') :: t, k, v => if k' = k then (k, v) :: t else (k', v') :: setKeyA t k v

/-! ## Data model (`rewind.py`) -/

/-- Enum `ChangeType` from `rewind.py`. -/
inductive ChangeType where
  | created
  | modified
  | deleted
deriving DecidableEq, Repr

/-- Structure `FileChange` from `rewind.py`: one file modification within a turn. -/
structure FileChange where
  path : String
  change_type : ChangeType
  content_before : Option String
  content_after : Option String
deriving DecidableEq, Repr

/-- Structure `TurnCheckpoint` from `rewind.py` (the wall-clock `timestamp` field is
omitted: no modelled operation reads it). -/
structure TurnCheckpoint where
  turn_number : Int
  message_index : Int
  file_changes : List FileChange
  summary : Option String
deriving DecidableEq, Repr

/-- Structure `RewindState` from `rewind.py`.  `originals` is the insertion-ordered
map `path → original content or None`. -/
structure RewindState where
  session_id : String
  working_directory : String
  git_branch : Option String
  git_head : Option String
  current_turn : Int
  checkpoints : List TurnCheckpoint
  originals : List (String × Option String)
deriving DecidableEq, Repr

/-- Structure `Conflict` from `rewind.py`. -/
structure Conflict where
  path : String
  expected_content : Option String
  actual_content : Option String
deriving DecidableEq, Repr

/-! ## Snapshot store (`snapshots.py`)

The on-disk layout is modelled structurally: `metas` and `orig_snapshots`
model `snapshots/originals/{path_hash}.meta` / `.snapshot` keyed by the
path, `turn_dirs` models `snapshots/turns/turn-NNN/`, and `rewind_json`
models `rewind.json` as written by `save_rewind_state`. -/

/-- The `{path, existed}` record of an `originals/{path_hash}.meta` file. -/
structure OriginalMeta where
  path : String
  existed : Bool
deriving DecidableEq, Repr

/-- One `snapshots/turns/turn-NNN/` directory: the manifest's change
descriptors and the per-path `content_after` snapshot files. -/
structure TurnSnapshot where
  turn_number : Int
  manifest : List (String × ChangeType)
  snapshots : List (String × String)
deriving DecidableEq, Repr

/-- The fields of `rewind.json` that `save_rewind_state` writes (session id,
working directory and git context are copied verbatim and omitted here). -/
structure RewindJson where
  current_turn : Int
  originals : List (String × Option String)
  checkpoint_turns : List Int
deriving DecidableEq, Repr

/-- The modelled per-session snapshot store. -/
structure SnapshotStore where
  metas : List (String × OriginalMeta)
  orig_snapshots : List (String × String)
  turn_dirs : List TurnSnapshot
  rewind_json : Option RewindJson
deriving DecidableEq, Repr

/-- The empty store of a fresh session directory. -/
def SnapshotStore.empty : SnapshotStore :=
  { metas := [], orig_snapshots := [], turn_dirs := [], rewind_json := none }

/-- Operation `SnapshotStorage.save_original`: writes the meta file and, when the
content is not `None`, the snapshot file.  Both writes overwrite whatever
was stored for this path before. -/
def saveOriginal (store : SnapshotStore) (path : String) (content : Option String) :
    SnapshotStore :=
  { store with
    metas := setKeyA store.metas path ⟨path, content.isSome⟩,
    orig_snapshots :=
      match content with
      | some c => setKeyA store.orig_snapshots path c
      | none => store.orig_snapshots }

/-- Operation `SnapshotStorage.save_turn`: creates the turn directory with one
snapshot per non-deleted change and a manifest enumerating every change. -/
def saveTurn (store : SnapshotStore) (cp : TurnCheckpoint) : SnapshotStore :=
  { store with
    turn_dirs := store.turn_dirs ++
      [{ turn_number := cp.turn_number,
         manifest := cp.file_changes.map (fun c => (c.path, c.change_type)),
         snapshots := cp.file_changes.filterMap
           (fun c => c.content_after.map (fun a => (c.path, a))) }] }

/-- Operation `SnapshotStorage.save_rewind_state`: rewrites `rewind.json` from the
current state (contents elided, checkpoint turn numbers listed). -/
def saveRewindState (store : SnapshotStore) (st : RewindState) : SnapshotStore :=
  { store with
    rewind_json := some
      { current_turn := st.current_turn,
        originals := st.originals,
        checkpoint_turns := st.checkpoints.map (·.turn_number) } }

/-! ## Rewind manager (`rewind.py`)

A `Sess` bundles the modelled file system with the `RewindManager`'s own
state: `state` and `storage` plus the private `_current_turn_changes`
(insertion-ordered, keyed by path) and `_turn_in_progress`.  `read_file_safe`
is modelled as the file-system lookup itself (the 10 MB size cut-off and
decoding failures are not modelled), and `Path.resolve` canonicalization is
the identity: paths are taken to be already canonical strings. -/

structure Sess where
  fs : FS
  state : RewindState
  store : SnapshotStore
  current_turn_changes : List FileChange
  turn_in_progress : Bool

/-- Key-presence test in `_current_turn_changes` (Python `in` on the dict;
the dict key always equals the change's `path` field). -/
def containsChange : List FileChange → String → Bool
  | [], _ => false
  | c :: t, p => c.path = p || containsChange t p

/-- Python `self.state.originals.get(path)`: `None` both when the key is absent and
when the stored original is `None`. -/
def originalsGet (o : List (String × Option String)) (p : String) : Option String :=
  (lookupA o p).getD none

/-- Operation `RewindManager.begin_turn`. -/
def beginTurn (sess : Sess) : Sess :=
  { sess with turn_in_progress := true, current_turn_changes := [] }

/-- Operation `RewindManager.capture_before`. -/
def captureBefore (sess : Sess) (path : String) : Sess :=
  if sess.turn_in_progress = false then sess
  else if containsChange sess.current_turn_changes path then sess
  else
    let content := sess.fs path
    let state' :=
      if containsKeyA sess.state.originals path then sess.state
      else { sess.state with originals := sess.state.originals ++ [(path, content)] }
    let store' :=
      if containsKeyA sess.state.originals path then sess.store
      else saveOriginal sess.store path content
    { sess with
      state := state',
      store := store',
      current_turn_changes := sess.current_turn_changes ++
        [{ path := path,
           change_type := if content = none then ChangeType.created else ChangeType.modified,
           content_before := content,
           content_after := none }] }

/-- Operation `RewindManager.capture_after`.  The dict entry is created from the
recorded original when `capture_before` was not called, then mutated in
place (`content_after`, then `change_type`). -/
def captureAfter (sess : Sess) (path : String) (content : Option String)
    (change_type : Option ChangeType) : Sess :=
  if sess.turn_in_progress = false then sess
  else
    let changes :=
      if containsChange sess.current_turn_changes path then sess.current_turn_changes
      else sess.current_turn_changes ++
        [{ path := path,
           change_type := ChangeType.modified,
           content_before := originalsGet sess.state.originals path,
           content_after := none }]
    let changes' := changes.map (fun c =>
      if c.path = path then
        let c' := { c with content_after := content }
        let ct :=
          match change_type with
          | some t => t
          | none =>
            if content = none then ChangeType.deleted
            else if c'.content_before = none then ChangeType.created
            else ChangeType.modified
        { c' with change_type := ct }
      else c)
    { sess with current_turn_changes := changes' }

/-- Operation `RewindManager.end_turn`: increments the turn counter, freezes the
per-turn change set into a checkpoint, saves it, and clears the turn
state.  Returns the created checkpoint alongside the session. -/
def endTurn (sess : Sess) (message_index : Int) (summary : Option String) :
    Sess × TurnCheckpoint :=
  let newTurn := sess.state.current_turn + 1
  let cp : TurnCheckpoint :=
    { turn_number := newTurn,
      message_index := message_index,
      file_changes := sess.current_turn_changes,
      summary := summary }
  let state' := { sess.state with
    current_turn := newTurn,
    checkpoints := sess.state.checkpoints ++ [cp] }
  ({ sess with
      state := state',
      store := saveTurn sess.store cp,
      current_turn_changes := [],
      turn_in_progress := false }, cp)

/-- Operation `RewindManager.get_files_modified_after_turn`. -/
def changesAfterTurn (sess : Sess) (n : Int) : List FileChange :=
  (sess.state.checkpoints.filter (fun cp => decide (n < cp.turn_number))).flatMap
    (·.file_changes)

/-- Operation `RewindManager.validate_before_rewind`: every change after the target
turn whose path's current content differs from that change's
`content_after` contributes a conflict. -/
def validateBeforeRewind (sess : Sess) (n : Int) : List Conflict :=
  (changesAfterTurn sess n).filterMap (fun c =>
    if sess.fs c.path = c.content_after then none
    else some { path := c.path, expected_content := c.content_after,
                actual_content := sess.fs c.path })

/-- The `file_restore_map` construction inside `rewind_to_turn`: the first
occurrence of each path keeps its `content_before`. -/
def buildRestoreMap (changes : List FileChange) : List (String × Option String) :=
  changes.foldl
    (fun m c => if containsKeyA m c.path then m else m ++ [(c.path, c.content_before)])
    []

/-- One step of the restoration loop of `rewind_to_turn`: delete the file
(only when it exists) or write the target content, collecting the
`Deleted:` / `Restored:` messages. -/
def applyRestore (acc : FS × List String) (pc : String × Option String) :
    FS × List String :=
  match pc.2 with
  | none =>
    if (acc.1 pc.1).isSome then
      (acc.1.update pc.1 none, acc.2 ++ ["Deleted: " ++ pc.1])
    else acc
  | some c => (acc.1.update pc.1 (some c), acc.2 ++ ["Restored: " ++ pc.1])

/-- The `(success, restored_files, conflicts)` result of `rewind_to_turn`. -/
structure RewindResult where
  success : Bool
  restored : List String
  conflicts : List Conflict
deriving DecidableEq, Repr

/-- Operation `RewindManager.rewind_to_turn`. -/
def rewindToTurn (sess : Sess) (n : Int) (force : Bool) : RewindResult × Sess :=
  if n < 0 ∨ sess.state.current_turn < n then
    ({ success := false, restored := [], conflicts := [] }, sess)
  else
    let conflicts := validateBeforeRewind sess n
    if conflicts ≠ [] ∧ force = false then
      ({ success := false, restored := [], conflicts := conflicts }, sess)
    else
      let changes := changesAfterTurn sess n
      let rmap := buildRestoreMap changes
      let restoredPair := rmap.foldl applyRestore (sess.fs, [])
      let state' := { sess.state with
        checkpoints := sess.state.checkpoints.filter (fun cp => decide (cp.turn_number ≤ n)),
        current_turn := n }
      ({ success := true, restored := restoredPair.2, conflicts := conflicts },
       { sess with
          fs := restoredPair.1,
          state := state',
          store := saveRewindState sess.store state' })

/-- First change for a path in a change list (the occurrence that wins in
`file_restore_map`; checkpoints are appended in ascending turn order, so on
`changesAfterTurn` this is the path's earliest change after the target). -/
def firstChangeFor : List FileChange → String → Option FileChange
  | [], _ => none
  | c :: t, p => if c.path = p then some c else firstChangeFor t p

/-- A tool or an external actor writing (or deleting) a file: plain
file-system update, no rewind bookkeeping. -/
def writeFs (sess : Sess) (p : String) (content : Option String) : Sess :=
  { sess with fs := sess.fs.update p content }

/-! ## Tool registry (`tools/base.py`)

A tool's executor either returns a result string or raises; raising is
modelled as `Except.error` carrying the exception text.  The JSON argument
object is modelled as a string-keyed association list with string values
(its structure is uninterpreted by the registry).  The `track_tool` telemetry span
wraps the executor without affecting its result and is omitted. -/

/-- JSON argument objects, as handed to executors. -/
abbrev Args := List (String × String)

/-- A registered tool: just the executor, the only part `execute` uses
(name is the registry key; description and parameter schema are advertised
to the LLM, not consulted by `execute`). -/
structure ToolDef where
  exec : Args → Except String String

/-- Dict `ToolRegistry._tools`: name-keyed, insertion-ordered. -/
abbrev Registry := List (String × ToolDef)

/-- Operation `ToolRegistry.execute`. -/
def registryExecute (reg : Registry) (nm : String) (arguments : Args) : String :=
  match lookupA reg nm with
  | none => "Error: Unknown tool \x27" ++ nm ++ "\x27"
  | some tool =>
    match tool.exec arguments with
    | Except.ok r => r
    | Except.error e => "Error executing " ++ nm ++ ": " ++ e

/-! ## Edit tool (`tools/edit.py`)

Python's `str.count` / `str.replace` (non-overlapping, left to right) are
implemented on character lists; `str.strip` is modelled by `String.trim`
and `content.split("\n")` by `String.splitOn "\n"` (identical on the
newline separator, including `"".split("\n") == [""]`). -/

/-- Non-overlapping occurrence count for a nonempty pattern, scanning left
to right (the empty pattern is special-cased in `pyCount`).  The scan
consumes at least one character per step, so structural recursion on a fuel
of `s.length` computes the full left-to-right scan. -/
def countAux (pat : List Char) : Nat → List Char → Nat
  | 0, _ => 0
  | _, [] => 0
  | fuel + 1, c :: t =>
    if pat ≠ [] ∧ pat.isPrefixOf (c :: t) then
      1 + countAux pat fuel (List.drop pat.length (c :: t))
    else
      countAux pat fuel t

/-- Python `content.count(old)`: the empty pattern occurs `len + 1` times. -/
def pyCount (content pat : String) : Nat :=
  if pat.toList = [] then content.toList.length + 1
  else countAux pat.toList content.toList.length content.toList

/-- Python `pat in content`. -/
def pyContains (content pat : String) : Bool :=
  pyCount content pat != 0

/-- Python `s.replace(old, new)` for a nonempty `old`, with the same fuel
discipline as `countAux`. -/
def replaceAllAux (pat rep : List Char) : Nat → List Char → List Char
  | 0, s => s
  | _, [] => []
  | fuel + 1, c :: t =>
    if pat ≠ [] ∧ pat.isPrefixOf (c :: t) then
      rep ++ replaceAllAux pat rep fuel (List.drop pat.length (c :: t))
    else
      c :: replaceAllAux pat rep fuel t

/-- Python `s.replace(old, new, 1)` for a nonempty `old`. -/
def replaceOneAux (pat rep : List Char) : List Char → List Char
  | [] => []
  | c :: t =>
    if pat ≠ [] ∧ pat.isPrefixOf (c :: t) then
      rep ++ List.drop pat.length (c :: t)
    else
      c :: replaceOneAux pat rep t

/-- Python `content.replace(old, new)`; an empty `old` inserts `new` at
every of the `len + 1` gap positions. -/
def pyReplaceAll (content pat rep : String) : String :=
  if pat.toList = [] then
    ⟨rep.toList ++ content.toList.flatMap (fun c => c :: rep.toList)⟩
  else
    ⟨replaceAllAux pat.toList rep.toList content.toList.length content.toList⟩

/-- Python `content.replace(old, new, 1)`; an empty `old` prepends `new`. -/
def pyReplaceOne (content pat rep : String) : String :=
  if pat.toList = [] then ⟨rep.toList ++ content.toList⟩
  else ⟨replaceOneAux pat.toList rep.toList content.toList⟩

/-- The `lines_with_partial` scan of `EditTool.execute`: 1-based numbers of
lines containing the stripped first line of `old_string`. -/
def hintLines (content old_string : String) : List Nat :=
  let firstLine := (old_string.splitOn "\n").headD "" |>.trim
  ((content.splitOn "\n").zip (List.range (content.splitOn "\n").length)).filterMap
    (fun pr => if pyContains pr.1 firstLine then some (pr.2 + 1) else none)

/-- Python's rendering of a list of ints, as interpolated into the hint. -/
def renderNatList (l : List Nat) : String :=
  "[" ++ String.intercalate ", " (l.map toString) ++ "]"

/-- The hint appended to the not-found error (empty when no line matches). -/
def notFoundHint (content old_string : String) : String :=
  let lines := hintLines content old_string
  if lines = [] then ""
  else " Partial matches found on lines: " ++ renderNatList (lines.take 5)

/-- Operation `EditTool.execute` over the modelled file system.  Returns the result
text and the file system afterwards.  Path resolution
(`expanduser` / cwd-joining) is the identity on the modelled canonical
paths, every present path is a regular file, and reads and writes succeed. -/
def editExecute (fs : FS) (file_path old_string new_string : String)
    (replace_all : Bool) : String × FS :=
  match fs file_path with
  | none => ("Error: File not found: " ++ file_path, fs)
  | some content =>
    if pyContains content old_string = false then
      ("Error: old_string not found in file." ++ notFoundHint content old_string, fs)
    else
      let count := pyCount content old_string
      if 1 < count ∧ replace_all = false then
        ("Error: Found " ++ toString count ++
          " occurrences of old_string. Either make old_string more specific, or set replace_all=true.",
         fs)
      else
        let new_content :=
          if replace_all then pyReplaceAll content old_string new_string
          else pyReplaceOne content old_string new_string
        let replaced_count := if replace_all then count else 1
        ("Replaced " ++ toString replaced_count ++ " occurrence(s) in " ++ file_path,
         fs.update file_path (some new_content))

/-! ## Streaming completion decoder (`chat.py`, `stream_response`)

The LLM stream is a finite list of decoded chunks; each chunk may carry a
text delta and tool-call fragments keyed by a per-stream integer index.
The generator's yields are modelled as the returned event list; JSON
parsing of the accumulated argument text (`json.loads`) is an external
function and enters as the `parse` parameter (it fails on the empty
string).  Usage accounting and cost telemetry do not affect the yielded
events or the conversation text and are omitted. -/

/-- One accumulated entry of `tool_calls_data`. -/
structure TCData where
  id : String
  name : String
  arguments : String
deriving DecidableEq, Repr

/-- One tool-call fragment of a streamed chunk (`delta.tool_calls[k]`);
`none` models an absent field. -/
structure ToolCallDelta where
  index : Nat
  id : Option String
  name : Option String
  arguments : Option String
deriving DecidableEq, Repr

/-- One decoded stream chunk (`chunk.choices[0].delta`). -/
structure StreamChunk where
  content : Option String
  tool_calls : List ToolCallDelta
deriving DecidableEq, Repr

/-- A finalized `ToolCall` as yielded to the turn driver. -/
structure ToolCall where
  id : String
  name : String
  arguments : Args
deriving DecidableEq, Repr

/-- What the generator yields: text deltas, then finalized tool calls. -/
inductive StreamEvent where
  | text (s : String)
  | toolCall (tc : ToolCall)
deriving DecidableEq, Repr

/-- A conversation message (only the fields `stream_response` writes). -/
structure Message where
  role : String
  content : Option String
  tool_calls : Option (List TCData)
deriving DecidableEq, Repr

/-- Nat-keyed first-match lookup (`tool_calls_data[idx]`). -/
def lookupN {α : Type} : List (Nat × α) → Nat → Option α
  | [], _ => none
  | (k, v) :: t, i => if k = i then some v else lookupN t i

/-- Nat-keyed dict assignment: replace in place or append. -/
def setKeyN {α : Type} : List (Nat × α) → Nat → α → List (Nat × α)
  | [], i, v => [(i, v)]
  | (k, v') :: t, i, v => if k = i then (i, v) :: t else (k, v') :: setKeyN t i v

/-- Merging one tool-call fragment into `tool_calls_data`: `id` and `name`
are overwritten by truthy fragments, `arguments` text accumulates. -/
def stepTC (data : List (Nat × TCData)) (tc : ToolCallDelta) : List (Nat × TCData) :=
  let d0 := (lookupN data tc.index).getD { id := "", name := "", arguments := "" }
  let d1 := match tc.id with
    | some s => if s ≠ "" then { d0 with id := s } else d0
    | none => d0
  let d2 := match tc.name with
    | some s => if s ≠ "" then { d1 with name := s } else d1
    | none => d1
  let d3 := match tc.arguments with
    | some s => if s ≠ "" then { d2 with arguments := d2.arguments ++ s } else d2
    | none => d2
  setKeyN data tc.index d3

/-- The body of the streaming loop: yield truthy text deltas (also
collecting them in `content_chunks`) and fold tool-call fragments into
`tool_calls_data`. -/
def processChunk (acc : List StreamEvent × List String × List (Nat × TCData))
    (c : StreamChunk) : List StreamEvent × List String × List (Nat × TCData) :=
  let evs :=
    match c.content with
    | some s => if s ≠ "" then acc.1 ++ [StreamEvent.text s] else acc.1
    | none => acc.1
  let texts :=
    match c.content with
    | some s => if s ≠ "" then acc.2.1 ++ [s] else acc.2.1
    | none => acc.2.1
  (evs, texts, c.tool_calls.foldl stepTC acc.2.2)

/-- The accumulated `tool_calls_data` after the whole stream. -/
def streamData (chunks : List StreamChunk) : List (Nat × TCData) :=
  (chunks.foldl processChunk ([], [], [])).2.2

/-- The collected `content_chunks` after the whole stream. -/
def streamTexts (chunks : List StreamChunk) : List String :=
  (chunks.foldl processChunk ([], [], [])).2.1

/-- Python `full_content`: the joined text if any chunk carried text, else `None`. -/
def fullContent (chunks : List StreamChunk) : Option String :=
  if streamTexts chunks = [] then none else some (String.join (streamTexts chunks))

/-- Python `tool_calls_list`: the accumulated records if any, else `None`. -/
def toolCallsList (chunks : List StreamChunk) : Option (List TCData) :=
  if streamData chunks = [] then none else some ((streamData chunks).map (·.2))

/-- Generator `stream_response`: returns the yielded events and the conversation
afterwards.  `parse` models `json.loads` on the accumulated argument text;
a parse failure yields the empty argument object with the call still
dispatched. -/
def streamResponse (parse : String → Option Args) (conv : List Message)
    (chunks : List StreamChunk) : List StreamEvent × List Message :=
  let evs := (chunks.foldl processChunk ([], [], [])).1
  let conv' :=
    if (fullContent chunks).isSome || (toolCallsList chunks).isSome then
      conv ++ [{ role := "assistant", content := fullContent chunks,
                 tool_calls := toolCallsList chunks }]
    else conv
  let callEvs := (streamData chunks).map (fun pr =>
    StreamEvent.toolCall
      { id := pr.2.id, name := pr.2.name, arguments := (parse pr.2.arguments).getD [] })
  (evs ++ callEvs, conv')

/-! ## Sub-agents (`agents.py`) -/

/-- An `Agent`'s tool-filtering fields (name, description, prompt and model
do not enter `get_effective_tools` or the executor guard). -/
structure Agent where
  allowed_tools : Option (List String)
  disallowed_tools : Option (List String)
deriving DecidableEq, Repr

/-- Operation `Agent.get_effective_tools`. -/
def getEffectiveTools (a : Agent) (all_tools : List String) : List String :=
  match a.allowed_tools with
  | some allowed => allowed.filter (fun t => memS t all_tools)
  | none =>
    match a.disallowed_tools with
    | some disallowed => all_tools.filter (fun t => !memS t disallowed)
    | none => all_tools

/-- The `tool_executor` closure of `run_agent`: reject names outside the
agent's effective tool list without consulting the registry. -/
def agentToolExecutor (allowed_tools : List String) (reg : Registry)
    (nm : String) (arguments : Args) : String :=
  if memS nm allowed_tools = false then
    "Error: Tool \x27" ++ nm ++ "\x27 is not available to this agent"
  else registryExecute reg nm arguments

/-- The truthy text delta of a chunk (`if delta.content:`). -/
def truthyText (c : StreamChunk) : Option String :=
  match c.content with
  | some s => if s = "" then none else some s
  | none => none

/-! ## Concrete scenario states

The seed scenario S1/S2 of the specification: `foo.txt` starts as `"A\n"`,
turn 1 writes `"B\n"`, turn 2 edits it to `"C\n"`; each tool invocation is
bracketed by `capture_before` / `capture_after` as the turn driver does. -/

/-- Initial file system: `foo.txt` contains `"A\n"`. -/
def demoFs : FS := fun p => if p = "foo.txt" then some "A\n" else none

/-- Fresh session state (no git context). -/
def demoState0 : RewindState :=
  { session_id := "s1", working_directory := "/work", git_branch := none,
    git_head := none, current_turn := 0, checkpoints := [], originals := [] }

/-- Fresh session over `demoFs`. -/
def demoSess0 : Sess :=
  { fs := demoFs, state := demoState0, store := SnapshotStore.empty,
    current_turn_changes := [], turn_in_progress := false }

/-- After turn 1: `write(foo.txt, "B\n")`. -/
def demoTurn1 : Sess :=
  (endTurn
    (captureAfter
      (writeFs (captureBefore (beginTurn demoSess0) "foo.txt") "foo.txt" (some "B\n"))
      "foo.txt" (some "B\n") none)
    2 none).1

/-- After turn 2: `edit(foo.txt, "B", "C")`. -/
def demoTurn2 : Sess :=
  (endTurn
    (captureAfter
      (writeFs (captureBefore (beginTurn demoTurn1) "foo.txt") "foo.txt" (some "C\n"))
      "foo.txt" (some "C\n") none)
    4 none).1

/-- State after `rewind_to_turn(1)` following turn 2. -/
def demoRewind1 : RewindResult × Sess := rewindToTurn demoTurn2 1 false

/-- State after `rewind_to_turn(0)` following the rewind to turn 1. -/
def demoRewind0 : RewindResult × Sess := rewindToTurn demoRewind1.2 0 false

/-- S2: the operator externally writes `"Z\n"` after turn 2. -/
def demoExternal : Sess := writeFs demoTurn2 "foo.txt" (some "Z\n")

/-- A `capture_after` without a prior `capture_before` (the fallback path)
on a fresh session. -/
def demoFallback : Sess := captureAfter (beginTurn demoSess0) "foo.txt" (some "X") none

/-- A registry with a single tool whose executor raises. -/
def demoRegistry : Registry := [("boom", { exec := fun _ => Except.error "kaboom" })]

/-- An agent restricted to `read` and `grep` (scenario S6). -/
def demoAgent : Agent := { allowed_tools := some ["read", "grep"], disallowed_tools := none }

/-- A three-chunk stream: two text deltas, then tool-call fragments whose
argument text does not parse as JSON. -/
def demoChunks : List StreamChunk :=
  [{ content := some "Hel", tool_calls := [] },
   { content := some "lo", tool_calls :=
      [{ index := 0, id := some "call_1", name := some "edit", arguments := none }] },
   { content := none, tool_calls :=
      [{ index := 0, id := none, name := none, arguments := some "not json" }] }]

/-- A parse stand-in for `json.loads` that fails on every input. -/
def demoParse : String → Option Args := fun _ => none

/-- A one-message conversation. -/
def demoConv : List Message := [{ role := "user", content := some "hi", tool_calls := none }]

/-- A file system holding `"x x x"` at `/tmp/f.txt` (scenario S3). -/
def demoEditFs : FS := fun p => if p = "/tmp/f.txt" then some "x x x" else none

/-! ## Helper lemmas -/

theorem memS_eq_true_iff (x : String) (l : List String) : memS x l = true ↔ x ∈ l := by
  induction l with
  | nil => simp [memS]
  | cons y t ih => simp [memS, ih, List.mem_cons]

theorem lookupA_append {α : Type} (m₁ m₂ : List (String × α)) (p : String) :
    lookupA (m₁ ++ m₂) p =
      match lookupA m₁ p with
      | some v => some v
      | none => lookupA m₂ p := by
  induction m₁ with
  | nil => simp [lookupA]
  | cons kv t ih =>
    obtain ⟨k, v⟩ := kv
    by_cases h : k = p <;> simp [lookupA, h, ih]

theorem lookupA_eq_none_of_not_mem {α : Type} (m : List (String × α)) (p : String)
    (h : p ∉ m.map Prod.fst) : lookupA m p = none := by
  induction m with
  | nil => simp [lookupA]
  | cons kv t ih =>
    obtain ⟨k, v⟩ := kv
    simp only [List.map_cons, List.mem_cons] at h
    push_neg at h
    simp [lookupA, Ne.symm h.1, ih h.2]

theorem containsKeyA_false_not_mem {α : Type} (m : List (String × α)) (p : String)
    (h : containsKeyA m p = false) : p ∉ m.map Prod.fst := by
  induction m with
  | nil => simp
  | cons kv t ih =>
    obtain ⟨k, v⟩ := kv
    simp only [containsKeyA, Bool.or_eq_false_iff, decide_eq_false_iff_not] at h
    simp only [List.map_cons, List.mem_cons]
    push_neg
    exact ⟨Ne.symm h.1, ih h.2⟩

theorem lookupA_setKeyA_self {α : Type} (m : List (String × α)) (k : String) (v : α) :
    lookupA (setKeyA m k v) k = some v := by
  induction m with
  | nil => simp [setKeyA, lookupA]
  | cons kv t ih =>
    obtain ⟨k', v'⟩ := kv
    by_cases h : k' = k <;> simp [setKeyA, h, lookupA, ih]

theorem nodup_append_singleton {α : Type} (l : List α) (a : α)
    (hl : l.Nodup) (ha : a ∉ l) : (l ++ [a]).Nodup := by
  induction l with
  | nil => simp
  | cons x t ih =>
    simp only [List.nodup_cons] at hl
    simp only [List.mem_cons] at ha
    push_neg at ha
    simp only [List.cons_append, List.nodup_cons, List.mem_append, List.mem_singleton]
    exact ⟨by rintro (h | rfl); exacts [hl.1 h, ha.1 rfl], ih hl.2 ha.2⟩

theorem containsKeyA_true_lookupA {α : Type} (m : List (String × α)) (p : String)
    (h : containsKeyA m p = true) : ∃ v, lookupA m p = some v := by
  induction m with
  | nil => simp [containsKeyA] at h
  | cons kv t ih =>
    obtain ⟨k, v⟩ := kv
    by_cases hk : k = p
    · exact ⟨v, by simp [lookupA, hk]⟩
    · simp only [containsKeyA, Bool.or_eq_true, decide_eq_true_eq] at h
      rcases h with h | h
      · exact absurd h hk
      · obtain ⟨w, hw⟩ := ih h
        exact ⟨w, by simp [lookupA, hk, hw]⟩

/-- Lookup in the accumulated `file_restore_map`: first occurrence wins. -/
theorem buildRestoreMap_go_lookup (changes : List FileChange) :
    ∀ (m : List (String × Option String)) (p : String),
      lookupA (changes.foldl
        (fun m c => if containsKeyA m c.path then m else m ++ [(c.path, c.content_before)]) m) p =
      match lookupA m p with
      | some v => some v
      | none => (firstChangeFor changes p).map (·.content_before) := by
  induction changes with
  | nil =>
    intro m p
    simp only [List.foldl_nil]
    cases h : lookupA m p <;> simp [firstChangeFor, h]
  | cons c cs ih =>
    intro m p
    simp only [List.foldl_cons]
    by_cases hmem : containsKeyA m c.path
    · rw [if_pos hmem, ih]
      by_cases hp : c.path = p
      · subst hp
        obtain ⟨v, hv⟩ := containsKeyA_true_lookupA m c.path hmem
        simp [hv]
      · rcases hval : lookupA m p with _ | v <;> simp [firstChangeFor, hp]
    · rw [if_neg hmem, ih, lookupA_append]
      rcases hval : lookupA m p with _ | v
      · by_cases hp : c.path = p
        · simp [lookupA, hp, firstChangeFor]
        · simp [lookupA, hp, firstChangeFor]
      · simp

theorem buildRestoreMap_lookup (changes : List FileChange) (p : String) :
    lookupA (buildRestoreMap changes) p =
      (firstChangeFor changes p).map (·.content_before) := by
  have h := buildRestoreMap_go_lookup changes [] p
  simpa [buildRestoreMap, lookupA] using h

theorem buildRestoreMap_go_nodup (changes : List FileChange) :
    ∀ (m : List (String × Option String)), (m.map Prod.fst).Nodup →
      ((changes.foldl
        (fun m c => if containsKeyA m c.path then m else m ++ [(c.path, c.content_before)]) m).map
        Prod.fst).Nodup := by
  induction changes with
  | nil => intro m hm; simpa using hm
  | cons c cs ih =>
    intro m hm
    simp only [List.foldl_cons]
    by_cases hmem : containsKeyA m c.path
    · rw [if_pos hmem]; exact ih m hm
    · rw [if_neg hmem]
      refine ih _ ?_
      rw [List.map_append]
      exact nodup_append_singleton _ _ hm
        (containsKeyA_false_not_mem m c.path (by simpa using hmem))

theorem buildRestoreMap_nodup (changes : List FileChange) :
    ((buildRestoreMap changes).map Prod.fst).Nodup := by
  have h := buildRestoreMap_go_nodup changes [] (by simp)
  simpa [buildRestoreMap] using h

theorem applyRestore_fst_apply (acc : FS × List String) (kv : String × Option String)
    (q : String) :
    (applyRestore acc kv).1 q = if q = kv.1 then kv.2 else acc.1 q := by
  obtain ⟨k, v⟩ := kv
  rcases v with _ | c
  · by_cases hs : (acc.1 k).isSome
    · simp [applyRestore, hs, FS.update]
    · simp only [applyRestore, hs, if_neg, Bool.false_eq_true, not_false_eq_true]
      by_cases hq : q = k
      · subst hq
        simp only [if_pos rfl]
        exact (Option.not_isSome_iff_eq_none.mp (by simpa using hs)).symm ▸ rfl
      · simp [hq]
  · simp [applyRestore, FS.update]

theorem restore_fold_fst (m : List (String × Option String)) :
    ∀ (acc : FS × List String) (p : String), (m.map Prod.fst).Nodup →
      ((m.foldl applyRestore acc).1) p = (lookupA m p).getD (acc.1 p) := by
  induction m with
  | nil => intro acc p _; simp [lookupA]
  | cons kv t ih =>
    intro acc p hnd
    obtain ⟨k, v⟩ := kv
    simp only [List.map_cons, List.nodup_cons] at hnd
    simp only [List.foldl_cons]
    rw [ih (applyRestore acc (k, v)) p hnd.2]
    by_cases hp : p = k
    · subst hp
      rw [lookupA_eq_none_of_not_mem t p hnd.1]
      simp [lookupA, applyRestore_fst_apply]
    · rw [applyRestore_fst_apply]
      simp [lookupA, hp, Ne.symm hp]

/-- The streaming loop only ever appends text events, in chunk order; the
collected `content_chunks` are exactly the truthy text deltas. -/
theorem processChunk_foldl (chunks : List StreamChunk) :
    ∀ (evs : List StreamEvent) (texts : List String) (data : List (Nat × TCData)),
      (chunks.foldl processChunk (evs, texts, data)).1 =
        evs ++ (chunks.filterMap truthyText).map StreamEvent.text ∧
      (chunks.foldl processChunk (evs, texts, data)).2.1 =
        texts ++ chunks.filterMap truthyText := by
  induction chunks with
  | nil => intro evs texts data; simp
  | cons c cs ih =>
    intro evs texts data
    rcases hc : c.content with _ | s
    · have hstep : processChunk (evs, texts, data) c =
          (evs, texts, c.tool_calls.foldl stepTC data) := by
        simp [processChunk, hc]
      simp only [List.foldl_cons, hstep, List.filterMap_cons, truthyText, hc]
      exact ih evs texts _
    · by_cases hs : s = ""
      · have hstep : processChunk (evs, texts, data) c =
            (evs, texts, c.tool_calls.foldl stepTC data) := by
          simp [processChunk, hc, hs]
        simp only [List.foldl_cons, hstep, List.filterMap_cons, truthyText, hc, hs,
          if_pos rfl]
        exact ih evs texts _
      · have hstep : processChunk (evs, texts, data) c =
            (evs ++ [StreamEvent.text s], texts ++ [s], c.tool_calls.foldl stepTC data) := by
          simp [processChunk, hc, hs]
        obtain ⟨h1, h2⟩ := ih (evs ++ [StreamEvent.text s]) (texts ++ [s])
          (c.tool_calls.foldl stepTC data)
        constructor
        · simp only [List.foldl_cons, hstep, List.filterMap_cons, truthyText, hc,
            if_neg hs, List.map_cons]
          rw [h1, List.append_assoc]
          rfl
        · simp only [List.foldl_cons, hstep, List.filterMap_cons, truthyText, hc,
            if_neg hs]
          rw [h2, List.append_assoc]
          rfl

/-- memS is the membership test. -/
theorem memS_eq_false_iff (x : String) (l : List String) : memS x l = false ↔ x ∉ l := by
  rw [← memS_eq_true_iff x l]
  cases memS x l <;> simp

/-! ## Claim theorems -/

/-- C4: `ToolRegistry.execute` never raises across the component boundary:
an unknown name yields exactly `Error: Unknown tool '{name}'` (a constant
that consults no executor), and a registered tool whose executor raises
yields `Error executing {name}: {reason}` as the tool result text. -/
theorem registry_execute_total (reg : Registry) (nm : String) (arguments : Args) :
    (lookupA reg nm = none →
      registryExecute reg nm arguments = "Error: Unknown tool \x27" ++ nm ++ "\x27") ∧
    (∀ (t : ToolDef) (msg : String), lookupA reg nm = some t →
      t.exec arguments = Except.error msg →
      registryExecute reg nm arguments = "Error executing " ++ nm ++ ": " ++ msg) := by
  constructor
  · intro h
    simp [registryExecute, h]
  · intro t msg ht hmsg
    simp [registryExecute, ht, hmsg]

/-- C4 witness: an absent name and a raising executor, both as plain text
results. -/
theorem registry_execute_total_witness :
    registryExecute demoRegistry "nope" [] = "Error: Unknown tool \x27nope\x27" ∧
    registryExecute demoRegistry "boom" [] = "Error executing boom: kaboom" := by
  constructor
  · exact (registry_execute_total demoRegistry "nope" []).1 rfl
  · exact (registry_execute_total demoRegistry "boom" []).2
      { exec := fun _ => Except.error "kaboom" } "kaboom" rfl rfl

/-- C8: `effective_tools(all)` is `all ∩ allowed` when `allowed_tools` is
set, else `all \ disallowed` when `disallowed_tools` is set, else `all`;
and a tool-call naming a tool outside the effective set returns exactly
`Error: Tool '{name}' is not available to this agent` without consulting
the registry (the result is a constant in the registry argument). -/
theorem agent_effective_tools_filtering (a : Agent) (all_tools : List String) :
    (∀ al, a.allowed_tools = some al →
      ∀ t, t ∈ getEffectiveTools a all_tools ↔ t ∈ all_tools ∧ t ∈ al) ∧
    (∀ dl, a.allowed_tools = none → a.disallowed_tools = some dl →
      ∀ t, t ∈ getEffectiveTools a all_tools ↔ t ∈ all_tools ∧ t ∉ dl) ∧
    (a.allowed_tools = none → a.disallowed_tools = none →
      getEffectiveTools a all_tools = all_tools) ∧
    (∀ (reg : Registry) (nm : String) (arguments : Args),
      memS nm (getEffectiveTools a all_tools) = false →
      agentToolExecutor (getEffectiveTools a all_tools) reg nm arguments =
        "Error: Tool \x27" ++ nm ++ "\x27 is not available to this agent") := by
  refine ⟨?_, ?_, ?_, ?_⟩
  · intro al hal t
    simp [getEffectiveTools, hal, List.mem_filter, memS_eq_true_iff, and_comm]
  · intro dl hal hdl t
    simp [getEffectiveTools, hal, hdl, List.mem_filter, memS_eq_false_iff]
  · intro hal hdl
    simp [getEffectiveTools, hal, hdl]
  · intro reg nm arguments h
    simp [agentToolExecutor, h]

/-- C8 witness (scenario S6): the agent allowing only `read` and `grep`
rejects a `bash` tool call with the exact error text. -/
theorem agent_effective_tools_filtering_witness :
    getEffectiveTools demoAgent ["read", "write", "bash", "grep"] = ["read", "grep"] ∧
    agentToolExecutor (getEffectiveTools demoAgent ["read", "write", "bash", "grep"])
        demoRegistry "bash" [] =
      "Error: Tool \x27bash\x27 is not available to this agent" := by
  constructor
  · decide
  · exact (agent_effective_tools_filtering demoAgent ["read", "write", "bash", "grep"]).2.2.2
      demoRegistry "bash" [] (by decide)

/-- C9 counterexample: `save_original` is not a no-op on a path already
saved — a second call with different content overwrites the stored
snapshot (here from `"A"` to `"B"`). -/
theorem save_original_second_call_overwrites :
    lookupA (saveOriginal SnapshotStore.empty "/a.txt" (some "A")).orig_snapshots
      "/a.txt" = some "A" ∧
    lookupA (saveOriginal (saveOriginal SnapshotStore.empty "/a.txt" (some "A"))
      "/a.txt" (some "B")).orig_snapshots "/a.txt" = some "B" := by
  decide

/-- C9 amended: `save_original` unconditionally rewrites the meta entry
and, for non-null content, the snapshot; the per-session no-op is enforced
one level up, in `capture_before`, which calls `save_original` only for a
path with no `originals` entry yet, so a second call never happens for an
already-captured path. -/
theorem save_original_overwrite_and_guard :
    (∀ (store : SnapshotStore) (p : String) (c₁ c₂ : Option String),
      lookupA (saveOriginal (saveOriginal store p c₁) p c₂).metas p =
        some { path := p, existed := c₂.isSome }) ∧
    (∀ (store : SnapshotStore) (p : String) (c₁ : Option String) (b : String),
      lookupA (saveOriginal (saveOriginal store p c₁) p (some b)).orig_snapshots p =
        some b) ∧
    (∀ (sess : Sess) (p : String), containsKeyA sess.state.originals p = true →
      (captureBefore sess p).store = sess.store) := by
  refine ⟨?_, ?_, ?_⟩
  · intro store p c₁ c₂
    simp [saveOriginal, lookupA_setKeyA_self]
  · intro store p c₁ b
    simp [saveOriginal, lookupA_setKeyA_self]
  · intro sess p h
    by_cases ht : sess.turn_in_progress = false
    · simp [captureBefore, ht]
    · by_cases hc : containsChange sess.current_turn_changes p
      · simp [captureBefore, ht, hc]
      · simp [captureBefore, ht, hc, h]

/-- C9 witness: a path captured in the demo session is guarded, and the
second raw `save_original` call overwrites. -/
theorem save_original_overwrite_and_guard_witness :
    (captureBefore demoTurn2 "foo.txt").store = demoTurn2.store ∧
    lookupA (saveOriginal (saveOriginal SnapshotStore.empty "/a.txt" (some "A"))
      "/a.txt" (some "B")).orig_snapshots "/a.txt" = some "B" := by
  constructor
  · exact save_original_overwrite_and_guard.2.2 demoTurn2 "foo.txt" (by decide)
  · exact save_original_overwrite_and_guard.2.1 SnapshotStore.empty "/a.txt" (some "A") "B"

/-- C10: when no turn is in progress, `capture_before` and `capture_after`
return with the session — file system, rewind state, snapshot store and
per-turn change set — entirely unchanged. -/
theorem capture_noop_outside_turn (sess : Sess) (p : String)
    (content : Option String) (ct : Option ChangeType)
    (h : sess.turn_in_progress = false) :
    captureBefore sess p = sess ∧ captureAfter sess p content ct = sess := by
  constructor
  · simp [captureBefore, h]
  · simp [captureAfter, h]

/-- C10 witness: a fresh session (no turn begun) is untouched by both
capture operations. -/
theorem capture_noop_outside_turn_witness :
    captureBefore demoSess0 "foo.txt" = demoSess0 ∧
    captureAfter demoSess0 "foo.txt" (some "X") none = demoSess0 := by
  exact capture_noop_outside_turn demoSess0 "foo.txt" (some "X") none rfl

/-- C3 counterexample: the fallback `capture_after` (no prior
`capture_before`) records the session's first FileChange for `foo.txt`
(the file exists with content `"A\n"`) yet creates no `originals` entry at
all — contradicting the claim that it sets `originals[path]` to the content
read at that moment. -/
theorem originals_fallback_no_entry :
    demoSess0.fs "foo.txt" = some "A\n" ∧
    demoFallback.current_turn_changes ≠ [] ∧
    lookupA demoFallback.state.originals "foo.txt" = none := by
  decide

/-- C3 amended: the first `capture_before` of a path not yet in the current
turn's change set sets `originals[path]` to the content read at that moment
(`none` when the file does not exist); a fallback `capture_after` never
creates an `originals` entry; and once an `originals` entry exists, no
operation — `begin_turn`, `capture_before`, `capture_after`, `end_turn` or
`rewind_to_turn` — ever overwrites it. -/
theorem originals_first_capture_then_frozen :
    (∀ (sess : Sess) (p : String), sess.turn_in_progress = true →
      containsChange sess.current_turn_changes p = false →
      containsKeyA sess.state.originals p = false →
      lookupA (captureBefore sess p).state.originals p = some (sess.fs p)) ∧
    (∀ (sess : Sess) (p q : String) (v content : Option String)
        (ct : Option ChangeType) (mi n : Int) (sm : Option String) (force : Bool),
      lookupA sess.state.originals p = some v →
        lookupA (beginTurn sess).state.originals p = some v ∧
        lookupA (captureBefore sess q).state.originals p = some v ∧
        lookupA (captureAfter sess q content ct).state.originals p = some v ∧
        lookupA (endTurn sess mi sm).1.state.originals p = some v ∧
        lookupA (rewindToTurn sess n force).2.state.originals p = some v) := by
  constructor
  · intro sess p hturn hchg horig
    have hne : ¬ sess.turn_in_progress = false := by simp [hturn]
    have hnone : lookupA sess.state.originals p = none :=
      lookupA_eq_none_of_not_mem _ _ (containsKeyA_false_not_mem _ _ horig)
    simp only [captureBefore, if_neg hne, hchg, Bool.false_eq_true, if_neg, horig,
      if_false, not_false_eq_true]
    rw [lookupA_append, hnone]
    simp [lookupA]
  · intro sess p q v content ct mi n sm force hv
    refine ⟨?_, ?_, ?_, ?_, ?_⟩
    · simpa [beginTurn] using hv
    · by_cases ht : sess.turn_in_progress = false
      · simpa [captureBefore, ht] using hv
      · by_cases hc : containsChange sess.current_turn_changes q
        · simpa [captureBefore, ht, hc] using hv
        · by_cases ho : containsKeyA sess.state.originals q
          · simpa [captureBefore, ht, hc, ho] using hv
          · simp only [captureBefore, if_neg ht, hc, Bool.false_eq_true, if_false, ho]
            rw [lookupA_append, hv]
    · by_cases ht : sess.turn_in_progress = false
      · simpa [captureAfter, ht] using hv
      · simpa [captureAfter, ht] using hv
    · simpa [endTurn] using hv
    · by_cases h1 : n < 0 ∨ sess.state.current_turn < n
      · simpa [rewindToTurn, h1] using hv
      · by_cases h2 : validateBeforeRewind sess n ≠ [] ∧ force = false
        · simpa [rewindToTurn, h1, h2] using hv
        · simpa [rewindToTurn, h1, h2] using hv

/-- C3 witness: on a fresh session with a begun turn, the first
`capture_before` of `foo.txt` records `some "A\n"` as its original, and a
later `capture_before` during turn 2 leaves that entry intact. -/
theorem originals_first_capture_then_frozen_witness :
    lookupA (captureBefore (beginTurn demoSess0) "foo.txt").state.originals "foo.txt" =
      some (some "A\n") ∧
    lookupA (captureBefore (beginTurn demoTurn1) "foo.txt").state.originals "foo.txt" =
      some (some "A\n") := by
  constructor
  · exact originals_first_capture_then_frozen.1 (beginTurn demoSess0) "foo.txt" rfl rfl rfl
  · exact (originals_first_capture_then_frozen.2 (beginTurn demoTurn1) "foo.txt" "foo.txt"
      (some "A\n") none none 0 0 none false (by decide)).2.1

/-- C5: `edit` errors (with the partial-match hint) and leaves the file
unchanged when `old_string` occurs zero times; errors mentioning the
occurrence count and leaves the file unchanged when it occurs more than
once with `replace_all=false`; and otherwise performs the replacement(s)
and reports the number replaced. -/
theorem edit_tool_occurrence_discipline (fs : FS) (p old new : String)
    (content : String) (replace_all : Bool) (h : fs p = some content) :
    (pyCount content old = 0 →
      (editExecute fs p old new replace_all).1 =
        "Error: old_string not found in file." ++ notFoundHint content old ∧
      (editExecute fs p old new replace_all).2 = fs) ∧
    (1 < pyCount content old → replace_all = false →
      (editExecute fs p old new replace_all).1 =
        "Error: Found " ++ toString (pyCount content old) ++
          " occurrences of old_string. Either make old_string more specific, or set replace_all=true." ∧
      (editExecute fs p old new replace_all).2 = fs) ∧
    (pyCount content old ≠ 0 → (pyCount content old ≤ 1 ∨ replace_all = true) →
      (editExecute fs p old new replace_all).1 =
        "Replaced " ++ toString (if replace_all then pyCount content old else 1) ++
          " occurrence(s) in " ++ p ∧
      (editExecute fs p old new replace_all).2 =
        fs.update p (some (if replace_all then pyReplaceAll content old new
                           else pyReplaceOne content old new))) := by
  refine ⟨?_, ?_, ?_⟩
  · intro h0
    have hcont : pyContains content old = false := by
      simp [pyContains, h0]
    constructor <;> simp [editExecute, h, hcont]
  · intro hgt hra
    have hcont : ¬ pyContains content old = false := by
      simp only [pyContains, bne_eq_false_iff_eq]
      omega
    have hcond : 1 < pyCount content old ∧ replace_all = false := ⟨hgt, hra⟩
    constructor <;> simp [editExecute, h, hcont, hcond, hra]
  · intro hne hle
    have hcont : ¬ pyContains content old = false := by
      simp only [pyContains, bne_eq_false_iff_eq]
      omega
    have hcond : ¬ (1 < pyCount content old ∧ replace_all = false) := by
      rcases hle with h' | h'
      · intro hx; omega
      · intro hx; rw [h'] at hx; exact absurd hx.2 (by simp)
    constructor <;> simp [editExecute, h, hcont, hcond]

/-- C5 witness (scenario S3): on `"x x x"`, `edit(p, "x", "y")` errors
mentioning 3 occurrences and leaves the file unchanged, while
`replace_all=true` yields `"y y y"` and reports 3. -/
theorem edit_tool_occurrence_discipline_witness :
    pyCount "x x x" "x" = 3 ∧
    (editExecute demoEditFs "/tmp/f.txt" "x" "y" false).1 =
      "Error: Found 3 occurrences of old_string. Either make old_string more specific, or set replace_all=true." ∧
    (editExecute demoEditFs "/tmp/f.txt" "x" "y" false).2 "/tmp/f.txt" = some "x x x" ∧
    (editExecute demoEditFs "/tmp/f.txt" "x" "y" true).1 =
      "Replaced 3 occurrence(s) in /tmp/f.txt" ∧
    (editExecute demoEditFs "/tmp/f.txt" "x" "y" true).2 "/tmp/f.txt" = some "y y y" := by
  have h := (edit_tool_occurrence_discipline demoEditFs "/tmp/f.txt" "x" "y" "x x x"
    false rfl).2.1 (by decide) rfl
  refine ⟨by decide, ?_, ?_, by decide, by decide⟩
  · simpa using h.1
  · rw [h.2]
    rfl

/-- C6: the completion service yields every text delta, in submission
order, before the first completed tool-call record is visible (the event
list is all text events followed by all tool-call events), and a tool call
whose accumulated argument text is empty or fails to parse as JSON is still
dispatched, with the empty argument object.  `parse` models `json.loads`,
which fails on the empty string. -/
theorem stream_text_first_and_empty_args (parse : String → Option Args)
    (conv : List Message) (chunks : List StreamChunk)
    (hparse : parse "" = none) :
    ((streamResponse parse conv chunks).1 =
      ((chunks.filterMap truthyText).map StreamEvent.text) ++
      ((streamData chunks).map (fun pr => StreamEvent.toolCall
        { id := pr.2.id, name := pr.2.name,
          arguments := (parse pr.2.arguments).getD [] }))) ∧
    (∀ (i : Nat) (d : TCData), (i, d) ∈ streamData chunks →
      (d.arguments = "" ∨ parse d.arguments = none) →
      StreamEvent.toolCall { id := d.id, name := d.name, arguments := [] } ∈
        (streamResponse parse conv chunks).1) := by
  have hfold := (processChunk_foldl chunks [] [] []).1
  have hmain : (streamResponse parse conv chunks).1 =
      ((chunks.filterMap truthyText).map StreamEvent.text) ++
      ((streamData chunks).map (fun pr => StreamEvent.toolCall
        { id := pr.2.id, name := pr.2.name,
          arguments := (parse pr.2.arguments).getD [] })) := by
    simp only [streamResponse, streamData]
    rw [hfold]
    simp
  refine ⟨hmain, ?_⟩
  intro i d hmem hargs
  have harg : (parse d.arguments).getD [] = ([] : Args) := by
    rcases hargs with h | h
    · rw [h, hparse]; rfl
    · rw [h]; rfl
  rw [hmain]
  apply List.mem_append_right
  have hm := List.mem_map_of_mem (fun pr : Nat × TCData => StreamEvent.toolCall
    { id := pr.2.id, name := pr.2.name,
      arguments := (parse pr.2.arguments).getD [] }) hmem
  simpa [harg] using hm

/-- C6 witness: on the demo stream (two text deltas, then a tool call with
unparsable argument text) every text event precedes the tool-call event,
which is dispatched with the empty argument object. -/
theorem stream_text_first_and_empty_args_witness :
    (streamResponse demoParse demoConv demoChunks).1 =
      [StreamEvent.text "Hel", StreamEvent.text "lo",
       StreamEvent.toolCall { id := "call_1", name := "edit", arguments := [] }] ∧
    StreamEvent.toolCall { id := "call_1", name := "edit", arguments := [] } ∈
      (streamResponse demoParse demoConv demoChunks).1 := by
  constructor
  · decide
  · exact (stream_text_first_and_empty_args demoParse demoConv demoChunks rfl).2 0
      { id := "call_1", name := "edit", arguments := "not json" }
      (by decide) (Or.inr rfl)

/-- C7 counterexample: a completion that ends with neither text nor tool
calls is not treated as a protocol error — `stream_response` returns
normally, yields nothing, and silently appends no assistant message (the
conversation is unchanged). -/
theorem stream_empty_completion_silent :
    (streamResponse demoParse demoConv []).2 = demoConv ∧
    (streamResponse demoParse demoConv []).1 = [] := by
  decide

/-- C7 amended: when the stream ends with nonempty accumulated text or at
least one tool-call record, an assistant message carrying both is appended
to the conversation; when both are empty, no assistant message is appended
and no error is raised. -/
theorem stream_appends_assistant_message (parse : String → Option Args)
    (conv : List Message) (chunks : List StreamChunk) :
    ((fullContent chunks).isSome = true ∨ (toolCallsList chunks).isSome = true →
      (streamResponse parse conv chunks).2 =
        conv ++ [{ role := "assistant", content := fullContent chunks,
                   tool_calls := toolCallsList chunks }]) ∧
    (fullContent chunks = none → toolCallsList chunks = none →
      (streamResponse parse conv chunks).2 = conv) := by
  constructor
  · intro h
    have hcond : ((fullContent chunks).isSome || (toolCallsList chunks).isSome) = true := by
      rcases h with h | h <;> simp [h]
    simp [streamResponse, hcond]
  · intro h1 h2
    simp [streamResponse, h1, h2]

/-- C7 witness: the demo stream has text and a tool call, so exactly one
assistant message carrying both is appended. -/
theorem stream_appends_assistant_message_witness :
    fullContent demoChunks = some "Hello" ∧
    (streamResponse demoParse demoConv demoChunks).2 =
      demoConv ++ [{ role := "assistant", content := fullContent demoChunks,
                     tool_calls := toolCallsList demoChunks }] := by
  constructor
  · decide
  · exact (stream_appends_assistant_message demoParse demoConv demoChunks).1
      (Or.inl (by decide))

/-- C2: `rewind_to_turn` with an out-of-range target is a no-op failure
with no conflicts and no restorations; an in-range rewind with a nonempty
conflict list and `force=false` returns `(false, [], conflicts)` leaving
the file system, checkpoints and `current_turn` untouched (the whole
session is returned unchanged); and for each path in the undo set whose
current content differs from the `content_after` of the most recent
checkpoint that touched it, a conflict for that path (with that expected
and actual content) is detected by `validate_before_rewind`.  All three
cases are plain values of the model, not exceptions. -/
theorem rewind_conflicts_and_range (sess : Sess) (n : Int) (force : Bool) :
    ((n < 0 ∨ sess.state.current_turn < n) →
      rewindToTurn sess n force =
        ({ success := false, restored := [], conflicts := [] }, sess)) ∧
    (¬(n < 0 ∨ sess.state.current_turn < n) →
      validateBeforeRewind sess n ≠ [] → force = false →
      rewindToTurn sess n force =
        ({ success := false, restored := [],
           conflicts := validateBeforeRewind sess n }, sess)) ∧
    (∀ (cp : TurnCheckpoint) (c : FileChange), cp ∈ sess.state.checkpoints →
      c ∈ cp.file_changes → n < cp.turn_number →
      (∀ cp' ∈ sess.state.checkpoints, cp.turn_number < cp'.turn_number →
        ∀ c' ∈ cp'.file_changes, c'.path ≠ c.path) →
      sess.fs c.path ≠ c.content_after →
      ({ path := c.path, expected_content := c.content_after,
         actual_content := sess.fs c.path } : Conflict) ∈
        validateBeforeRewind sess n) := by
  refine ⟨?_, ?_, ?_⟩
  · intro h
    simp [rewindToTurn, h]
  · intro hr hc hf
    simp [rewindToTurn, hr, hc, hf]
  · intro cp c hcp hcmem hlt hmost hneq
    have hchange : c ∈ changesAfterTurn sess n := by
      unfold changesAfterTurn
      exact List.mem_flatMap.mpr ⟨cp, List.mem_filter.mpr ⟨hcp, by simp [hlt]⟩, hcmem⟩
    unfold validateBeforeRewind
    exact List.mem_filterMap.mpr ⟨c, hchange, by simp [hneq]⟩

/-- C2 witness (scenario S2): after the operator externally writes
`"Z\n"`, `rewind_to_turn(0, force=false)` returns the conflicts untouched;
an out-of-range target returns the no-op failure; and the most recent
checkpoint's mismatch (`expected "C\n"`, `actual "Z\n"`) is among the
detected conflicts. -/
theorem rewind_conflicts_and_range_witness :
    validateBeforeRewind demoExternal 0 ≠ [] ∧
    rewindToTurn demoExternal 0 false =
      ({ success := false, restored := [],
         conflicts := validateBeforeRewind demoExternal 0 }, demoExternal) ∧
    rewindToTurn demoTurn2 5 false =
      ({ success := false, restored := [], conflicts := [] }, demoTurn2) ∧
    ({ path := "foo.txt", expected_content := some "C\n",
       actual_content := some "Z\n" } : Conflict) ∈
      validateBeforeRewind demoExternal 0 := by
  refine ⟨by decide, ?_, ?_, ?_⟩
  · exact (rewind_conflicts_and_range demoExternal 0 false).2.1
      (by decide) (by decide) rfl
  · exact (rewind_conflicts_and_range demoTurn2 5 false).1 (by decide)
  · exact (rewind_conflicts_and_range demoExternal 0 false).2.2
      { turn_number := 2, message_index := 4,
        file_changes := [{ path := "foo.txt", change_type := ChangeType.modified,
                           content_before := some "B\n", content_after := some "C\n" }],
        summary := none }
      { path := "foo.txt", change_type := ChangeType.modified,
        content_before := some "B\n", content_after := some "C\n" }
      (by decide) (by decide) (by decide) (by decide) (by decide)

/-- C1: a rewind that proceeds (in-range target, and no conflicts or
`force`) restores every path changed after turn `n` to the
`content_before` recorded at that path's earliest change after turn `n`
(`none` meaning the file is deleted), and sets `current_turn` to `n`.
Checkpoints are appended in ascending turn order, so the first occurrence
in `changesAfterTurn` is that path's earliest change after the target. -/
theorem rewind_restores_earliest_before (sess : Sess) (n : Int) (force : Bool)
    (p : String) (c : FileChange)
    (h0 : 0 ≤ n) (h1 : n ≤ sess.state.current_turn)
    (hok : validateBeforeRewind sess n = [] ∨ force = true)
    (hc : firstChangeFor (changesAfterTurn sess n) p = some c) :
    (rewindToTurn sess n force).2.fs p = c.content_before ∧
    (rewindToTurn sess n force).2.state.current_turn = n := by
  have hr : ¬(n < 0 ∨ sess.state.current_turn < n) := by omega
  have hcond : ¬(validateBeforeRewind sess n ≠ [] ∧ force = false) := by
    rcases hok with h | h
    · simp [h]
    · simp [h]
  constructor
  · simp only [rewindToTurn, if_neg hr, if_neg hcond]
    rw [restore_fold_fst _ _ _ (buildRestoreMap_nodup _), buildRestoreMap_lookup, hc]
    rfl
  · simp [rewindToTurn, hr, hcond]

/-- C1 witness (scenario S1): turn 1 writes `"B\n"`, turn 2 edits to
`"C\n"`; `rewind_to_turn(1)` restores `"B\n"`, the following
`rewind_to_turn(0)` restores `"A\n"` and `current_turn` becomes 0. -/
theorem rewind_restores_earliest_before_witness :
    demoRewind1.2.fs "foo.txt" = some "B\n" ∧
    demoRewind0.2.fs "foo.txt" = some "A\n" ∧
    demoRewind0.2.state.current_turn = 0 := by
  refine ⟨?_, by decide, by decide⟩
  exact (rewind_restores_earliest_before demoTurn2 1 false "foo.txt"
    { path := "foo.txt", change_type := ChangeType.modified,
      content_before := some "B\n", content_after := some "C\n" }
    (by decide) (by decide) (Or.inl (by decide)) (by decide)).1

end Loco
